import Mathlib

/-!
Verification of the Redfish subscription fleet orchestrator
(`redfish-exporter/redfish_utils.go`).

The remote world (gofish client calls) is modelled by an environment `Env`
of per-server response oracles.  Every embedded function returns the list
of external calls it makes (`Event` trace) together with its Go return
value.  The goroutine fan-out of `CreateSubscriptionsForAllServers` and
`DeleteSubscriptionsFromAllServers` is serialised in input order; the Go
map is an association list with overwrite-on-existing-key insertion, so
all order-insensitive facts (map contents, error multiset, per-entry
rollback calls) are faithful to every interleaving.
-/

deriving instance DecidableEq for Except

/-- `RedfishServer` struct from the source. -/
structure RedfishServer where
  IP : String
  Username : String
  Password : String
  LoginType : String
  SlurmNode : String
  deriving DecidableEq, Repr

/-- `SubscriptionPayload` struct from the source.  `EventTypes`,
`DeliveryRetryPolicy`, `Protocol` and `Oem` are opaque data the code only
passes through; they are modelled as strings / string lists. -/
structure SubscriptionPayload where
  Destination : String
  EventTypes : List String
  RegistryPrefixes : List String
  ResourceTypes : List String
  DeliveryRetryPolicy : String
  HTTPHeaders : List (String × String)
  Oem : String
  Protocol : String
  Context : String
  deriving DecidableEq, Repr

/-- A remote `redfish.EventDestination` as used by the code: the code reads
`Destination`, `ODataID` and `ID`; `Context` stands for the remaining
fields the code never inspects. -/
structure EventDestination where
  ID : String
  ODataID : String
  Destination : String
  Context : String
  deriving DecidableEq, Repr

/-- External calls a run makes against the remote servers. -/
inductive Event where
  | connect (ip : String)
  | listSubs (ip : String)
  | createLegacyCall (ip dest : String) (eventTypes : List String)
      (headers : List (String × String)) (protocol context oem : String)
  | createV15Call (ip dest : String) (registryPrefixes resourceTypes : List String)
      (headers : List (String × String)) (protocol context retryPolicy oem : String)
  | deleteCall (ip uri : String)
  deriving DecidableEq, Repr

/-- Response oracles for the gofish collaborator: what each remote call
returns for a given server.  Deterministic per server within one run. -/
structure Env where
  connect : RedfishServer → Except String Unit
  eventService : RedfishServer → Except String Unit
  getEventSubscriptions : RedfishServer → Except String (List EventDestination)
  createEventSubscription : RedfishServer → String → List String →
      List (String × String) → String → String → String → Except String String
  createEventSubscriptionInstance : RedfishServer → String → List String →
      List String → List (String × String) → String → String → String → String →
      Except String String
  deleteEventSubscription : RedfishServer → String → Except String Unit

/-- `getRedfishClient`: attempts a connection (always an external contact),
returning the connection outcome. -/
def getRedfishClient (env : Env) (server : RedfishServer) :
    List Event × Except String Unit :=
  ([Event.connect server.IP], env.connect server)

/-- `isV1_5`: the version check is a stub that always returns false. -/
def isV1_5 : Bool :=
  false

/-- `createV1_5Subscription`: the v1.5-shape create call. -/
def createV1_5Subscription (env : Env) (server : RedfishServer)
    (p : SubscriptionPayload) : List Event × Except String String :=
  ([Event.createV15Call server.IP p.Destination p.RegistryPrefixes p.ResourceTypes
      p.HTTPHeaders p.Protocol p.Context p.DeliveryRetryPolicy p.Oem],
   match env.createEventSubscriptionInstance server p.Destination p.RegistryPrefixes
      p.ResourceTypes p.HTTPHeaders p.Protocol p.Context p.DeliveryRetryPolicy p.Oem with
   | .error e => .error ("failed to create v1.5 subscription: " ++ e)
   | .ok uri => .ok uri)

/-- `createLegacySubscription`: the legacy-shape create call, passing
destination, event types, headers, protocol, context and Oem only. -/
def createLegacySubscription (env : Env) (server : RedfishServer)
    (p : SubscriptionPayload) : List Event × Except String String :=
  ([Event.createLegacyCall server.IP p.Destination p.EventTypes p.HTTPHeaders
      p.Protocol p.Context p.Oem],
   match env.createEventSubscription server p.Destination p.EventTypes p.HTTPHeaders
      p.Protocol p.Context p.Oem with
   | .error e => .error ("failed to create legacy subscription: " ++ e)
   | .ok uri => .ok uri)

/-- `getServerSubscriptions`: connect, get the event service, then list the
active subscriptions. -/
def getServerSubscriptions (env : Env) (server : RedfishServer) :
    List Event × Except String (List EventDestination) :=
  match env.connect server with
  | .error e =>
      ([Event.connect server.IP],
       .error ("failed to connect to server " ++ server.IP ++ ": " ++ e))
  | .ok _ =>
    match env.eventService server with
    | .error e =>
        ([Event.connect server.IP],
         .error ("failed to get event service on server " ++ server.IP ++ ": " ++ e))
    | .ok _ =>
      match env.getEventSubscriptions server with
      | .error e =>
          ([Event.connect server.IP, Event.listSubs server.IP],
           .error ("failed to get event subscriptions on server " ++ server.IP ++ ": " ++ e))
      | .ok subs => ([Event.connect server.IP, Event.listSubs server.IP], .ok subs)

/-- `deleteSubscriptionFromServer`: connect, get the event service, then
issue the delete call.  `none` is the nil error. -/
def deleteSubscriptionFromServer (env : Env) (server : RedfishServer)
    (subscriptionURI : String) : List Event × Option String :=
  match env.connect server with
  | .error e =>
      ([Event.connect server.IP],
       some ("failed to connect to server " ++ server.IP ++ ": " ++ e))
  | .ok _ =>
    match env.eventService server with
    | .error e =>
        ([Event.connect server.IP],
         some ("failed to get event service on server " ++ server.IP ++ ": " ++ e))
    | .ok _ =>
      match env.deleteEventSubscription server subscriptionURI with
      | .error e =>
          ([Event.connect server.IP, Event.deleteCall server.IP subscriptionURI],
           some ("failed to delete event subscription on server " ++ server.IP ++ ": " ++ e))
      | .ok _ =>
          ([Event.connect server.IP, Event.deleteCall server.IP subscriptionURI], none)

/-- The `for _, subscription := range subscriptions` loop of
`deleteConflictingSubscriptions`: delete every subscription whose
destination equals the payload's, stopping at the first delete failure. -/
def deleteConflictingLoop (env : Env) (server : RedfishServer)
    (p : SubscriptionPayload) : List EventDestination → List Event × Option String
  | [] => ([], none)
  | sub :: rest =>
    if sub.Destination = p.Destination then
      match deleteSubscriptionFromServer env server sub.ODataID with
      | (t, some e) =>
          (t, some ("failed to delete event subscription " ++ sub.ID ++
                    ", on server " ++ server.IP ++ ": " ++ e))
      | (t, none) =>
          let r := deleteConflictingLoop env server p rest
          (t ++ r.1, r.2)
    else
      deleteConflictingLoop env server p rest

/-- `deleteConflictingSubscriptions`: list the server's subscriptions and
delete the ones whose destination matches the payload's. -/
def deleteConflictingSubscriptions (env : Env) (server : RedfishServer)
    (p : SubscriptionPayload) : List Event × Option String :=
  match getServerSubscriptions env server with
  | (t, .error e) => (t, some e)
  | (t, .ok subs) =>
      let r := deleteConflictingLoop env server p subs
      (t ++ r.1, r.2)

/-- `createSubscription`: connect, get the event service, run the
duplicate cleanup (its returned error is discarded, exactly as at line 83
of the source), then create with the version-appropriate shape. -/
def createSubscription (env : Env) (server : RedfishServer)
    (p : SubscriptionPayload) : List Event × Except String String :=
  match env.connect server with
  | .error e =>
      ([Event.connect server.IP],
       .error ("failed to connect to server " ++ server.IP ++ ": " ++ e))
  | .ok _ =>
    match env.eventService server with
    | .error e =>
        ([Event.connect server.IP],
         .error ("failed to get event service on server " ++ server.IP ++ ": " ++ e))
    | .ok _ =>
      let cleanup := deleteConflictingSubscriptions env server p
      if isV1_5 then
        let r := createV1_5Subscription env server p
        (Event.connect server.IP :: (cleanup.1 ++ r.1), r.2)
      else
        let r := createLegacySubscription env server p
        (Event.connect server.IP :: (cleanup.1 ++ r.1), r.2)

/-- `getServerInfo`: linear scan for the first descriptor whose IP matches;
the zero-value `RedfishServer{}` when none does. -/
def getServerInfo : List RedfishServer → String → RedfishServer
  | [], _ => ⟨"", "", "", "", ""⟩
  | s :: rest, serverIP => if s.IP = serverIP then s else getServerInfo rest serverIP

/-- `DeleteSubscriptionsFromAllServers`: for every map entry, look the
server up by IP and attempt the delete; failures are only logged, so the
run produces a trace and no error value. -/
def DeleteSubscriptionsFromAllServers (env : Env) (redfishServers : List RedfishServer)
    (subscriptionMap : List (String × String)) : List Event :=
  (subscriptionMap.map (fun e =>
    (deleteSubscriptionFromServer env (getServerInfo redfishServers e.1) e.2).1)).flatten

/-- One worker goroutine of `CreateSubscriptionsForAllServers`: run the
create and wrap a failure with the server's IP. -/
def runWorker (env : Env) (p : SubscriptionPayload) (server : RedfishServer) :
    List Event × Except String String :=
  match createSubscription env server p with
  | (t, .error e) =>
      (t, .error ("subscription failed on server " ++ server.IP ++ ": " ++ e))
  | (t, .ok uri) => (t, .ok uri)

/-- Go map assignment `m[k] = v`: overwrite the entry for an existing key,
otherwise add a new entry. -/
def mapInsert : List (String × String) → String → String → List (String × String)
  | [], k, v => [(k, v)]
  | e :: rest, k, v => if e.1 = k then (k, v) :: rest else e :: mapInsert rest k v

/-- Effect of one worker on the shared `subscriptionMap`: a successful
worker stores its URI under its server's IP, a failed one stores nothing. -/
def fleetStep (env : Env) (p : SubscriptionPayload) (m : List (String × String))
    (s : RedfishServer) : List (String × String) :=
  match (runWorker env p s).2 with
  | .ok uri => mapInsert m s.IP uri
  | .error _ => m

/-- The `subscriptionMap` built by the workers. -/
def fleetSubscriptionMap (env : Env) (redfishServers : List RedfishServer)
    (p : SubscriptionPayload) : List (String × String) :=
  redfishServers.foldl (fleetStep env p) []

/-- What one worker contributes to the error channel: its error, if any. -/
def workerErrOption (env : Env) (p : SubscriptionPayload) (s : RedfishServer) :
    Option String :=
  match (runWorker env p s).2 with
  | .error e => some e
  | .ok _ => none

/-- The `allErrors` slice collected from the error channel. -/
def fleetAllErrors (env : Env) (redfishServers : List RedfishServer)
    (p : SubscriptionPayload) : List String :=
  redfishServers.filterMap (workerErrOption env p)

/-- Trace of the create phase (all worker calls, before the join). -/
def fleetCreateTrace (env : Env) (redfishServers : List RedfishServer)
    (p : SubscriptionPayload) : List Event :=
  (redfishServers.map (fun s => (runWorker env p s).1)).flatten

/-- Capacity of the error channel: `make(chan error, len(redfishServers))`. -/
def errChanCapacity (redfishServers : List RedfishServer) : Nat :=
  redfishServers.length

/-- Number of sends a single worker performs into the error channel. -/
def workerErrSends (env : Env) (p : SubscriptionPayload) (server : RedfishServer) : Nat :=
  match (runWorker env p server).2 with
  | .error _ => 1
  | .ok _ => 0

/-- Result of one fleet-create invocation: the returned map (none on the
error path), the returned error, and the create / rollback phase traces. -/
structure FleetOutcome where
  result : Option (List (String × String))
  error : Option String
  createTrace : List Event
  rollbackTrace : List Event
  deriving DecidableEq, Repr

/-- `CreateSubscriptionsForAllServers`: fan the workers out, collect the
errors; on any error roll back every recorded entry and return `nil` plus
the aggregate error, otherwise return the map. -/
def CreateSubscriptionsForAllServers (env : Env) (redfishServers : List RedfishServer)
    (p : SubscriptionPayload) : FleetOutcome :=
  let subscriptionMap := fleetSubscriptionMap env redfishServers p
  let allErrors := fleetAllErrors env redfishServers p
  if allErrors.length > 0 then
    { result := none
      error := some ("subscription process encountered errors: [" ++
                     String.intercalate " " allErrors ++ "]")
      createTrace := fleetCreateTrace env redfishServers p
      rollbackTrace := DeleteSubscriptionsFromAllServers env redfishServers subscriptionMap }
  else
    { result := some subscriptionMap
      error := none
      createTrace := fleetCreateTrace env redfishServers p
      rollbackTrace := [] }

/-- Number of delete calls for `uri` addressed to `ip` in a trace. -/
def countDel (t : List Event) (ip uri : String) : Nat :=
  (t.filter (fun e => decide (e = Event.deleteCall ip uri))).length

/-! ### Concrete fixtures used to evaluate the embedding -/

/-- A server with address `a`. -/
def srvA : RedfishServer :=
  ⟨"a", "u", "p", "t", "n"⟩

/-- A server with address `b`. -/
def srvB : RedfishServer :=
  ⟨"b", "u", "p", "t", "n"⟩

/-- A second server sharing address `a` but with different credentials. -/
def srvA2 : RedfishServer :=
  ⟨"a", "u2", "p", "t", "n"⟩

/-- A subscription payload with destination `d`. -/
def payload0 : SubscriptionPayload :=
  ⟨"d", ["E"], ["R"], ["T"], "Retry", [("h", "v")], "oem", "proto", "ctx"⟩

/-- Every remote call succeeds; create returns `s1` (`s2` on address `b`). -/
def envAllOk : Env where
  connect := fun _ => .ok ()
  eventService := fun _ => .ok ()
  getEventSubscriptions := fun _ => .ok []
  createEventSubscription := fun s _ _ _ _ _ _ =>
    .ok (if s.IP = "b" then "s2" else "s1")
  createEventSubscriptionInstance := fun _ _ _ _ _ _ _ _ _ => .ok "sv"
  deleteEventSubscription := fun _ _ => .ok ()

/-- Every remote call succeeds; create keys its URI off the username, so
two servers sharing an address get distinct identifiers. -/
def envDupOk : Env where
  connect := fun _ => .ok ()
  eventService := fun _ => .ok ()
  getEventSubscriptions := fun _ => .ok []
  createEventSubscription := fun s _ _ _ _ _ _ =>
    .ok (if s.Username = "u2" then "s2" else "s1")
  createEventSubscriptionInstance := fun _ _ _ _ _ _ _ _ _ => .ok "sv"
  deleteEventSubscription := fun _ _ => .ok ()

/-- Server `b` is unreachable; everything else succeeds with URI `s1`. -/
def envBFails : Env where
  connect := fun s => if s.IP = "b" then .error "down" else .ok ()
  eventService := fun _ => .ok ()
  getEventSubscriptions := fun _ => .ok []
  createEventSubscription := fun _ _ _ _ _ _ _ => .ok "s1"
  createEventSubscriptionInstance := fun _ _ _ _ _ _ _ _ _ => .ok "sv"
  deleteEventSubscription := fun _ _ => .ok ()

/-- Listing existing subscriptions fails with `boom`; the create succeeds. -/
def envListFails : Env where
  connect := fun _ => .ok ()
  eventService := fun _ => .ok ()
  getEventSubscriptions := fun _ => .error "boom"
  createEventSubscription := fun _ _ _ _ _ _ _ => .ok "s1"
  createEventSubscriptionInstance := fun _ _ _ _ _ _ _ _ _ => .ok "sv"
  deleteEventSubscription := fun _ _ => .ok ()

/-- No server is reachable. -/
def envDown : Env where
  connect := fun _ => .error "down"
  eventService := fun _ => .error "down"
  getEventSubscriptions := fun _ => .error "down"
  createEventSubscription := fun _ _ _ _ _ _ _ => .error "down"
  createEventSubscriptionInstance := fun _ _ _ _ _ _ _ _ _ => .error "down"
  deleteEventSubscription := fun _ _ => .error "down"

/-- An existing subscription whose destination matches `payload0`
(with a different context). -/
def sub1 : EventDestination :=
  ⟨"1", "e1", "d", "c1"⟩

/-- An existing subscription with a different destination. -/
def sub2 : EventDestination :=
  ⟨"2", "e2", "x", "c2"⟩

/-- The server reports `sub1` and `sub2`; deletes and creates succeed. -/
def envSubs : Env where
  connect := fun _ => .ok ()
  eventService := fun _ => .ok ()
  getEventSubscriptions := fun _ => .ok [sub1, sub2]
  createEventSubscription := fun _ _ _ _ _ _ _ => .ok "s1"
  createEventSubscriptionInstance := fun _ _ _ _ _ _ _ _ _ => .ok "sv"
  deleteEventSubscription := fun _ _ => .ok ()

/-! ### Association-list lemmas for the Go map -/

theorem mapInsert_of_not_mem_keys (m : List (String × String)) (k v : String)
    (h : ∀ q ∈ m, q.1 ≠ k) : mapInsert m k v = m ++ [(k, v)] := by
  induction m with
  | nil => rfl
  | cons q rest ih =>
    have hq : q.1 ≠ k := h q (List.mem_cons_self q rest)
    simp only [mapInsert, if_neg hq, List.cons_append, List.cons.injEq, true_and]
    exact ih (fun q' hq' => h q' (List.mem_cons_of_mem _ hq'))

theorem mem_of_mem_mapInsert {m : List (String × String)} {k v : String}
    {q : String × String} (h : q ∈ mapInsert m k v) : q = (k, v) ∨ q ∈ m := by
  induction m with
  | nil =>
    simp only [mapInsert, List.mem_singleton] at h
    exact .inl h
  | cons e rest ih =>
    by_cases he : e.1 = k
    · simp only [mapInsert, if_pos he, List.mem_cons] at h
      rcases h with h | h
      · exact .inl h
      · exact .inr (List.mem_cons_of_mem _ h)
    · simp only [mapInsert, if_neg he, List.mem_cons] at h
      rcases h with h | h
      · exact .inr (h ▸ List.mem_cons_self e rest)
      · rcases ih h with h' | h'
        · exact .inl h'
        · exact .inr (List.mem_cons_of_mem _ h')

theorem mem_keys_mapInsert {m : List (String × String)} {k v : String} (a : String) :
    a ∈ (mapInsert m k v).map Prod.fst ↔ a = k ∨ a ∈ m.map Prod.fst := by
  induction m with
  | nil => simp [mapInsert]
  | cons e rest ih =>
    by_cases he : e.1 = k
    · simp only [mapInsert, if_pos he, List.map_cons, List.mem_cons, ih]
      constructor
      · rintro (h | h)
        · exact .inl h
        · exact .inr (.inr h)
      · rintro (h | h | h)
        · exact .inl h
        · exact .inl (he ▸ h)
        · exact .inr h
    · simp only [mapInsert, if_neg he, List.map_cons, List.mem_cons, ih]
      tauto

theorem keys_nodup_mapInsert {m : List (String × String)} (k v : String)
    (h : (m.map Prod.fst).Nodup) : ((mapInsert m k v).map Prod.fst).Nodup := by
  induction m with
  | nil => simp [mapInsert]
  | cons e rest ih =>
    simp only [List.map_cons, List.nodup_cons] at h
    by_cases he : e.1 = k
    · simp only [mapInsert, if_pos he, List.map_cons, List.nodup_cons]
      exact ⟨he ▸ h.1, h.2⟩
    · simp only [mapInsert, if_neg he, List.map_cons, List.nodup_cons]
      refine ⟨fun hmem => ?_, ih h.2⟩
      rcases (mem_keys_mapInsert e.1).mp hmem with h' | h'
      · exact he h'
      · exact h.1 h'

/-! ### Analysis of a single worker -/

theorem createSubscription_ok_elim {env : Env} {s : RedfishServer}
    {p : SubscriptionPayload} {uri : String}
    (h : (createSubscription env s p).2 = .ok uri) :
    env.connect s = .ok () ∧ env.eventService s = .ok () := by
  unfold createSubscription at h
  cases hc : env.connect s with
  | error e => rw [hc] at h; simp at h
  | ok u =>
    cases u
    rw [hc] at h
    cases he : env.eventService s with
    | error e => rw [he] at h; simp at h
    | ok u2 =>
      cases u2
      exact ⟨rfl, rfl⟩

theorem runWorker_ok_iff {env : Env} {p : SubscriptionPayload} {s : RedfishServer}
    {uri : String} :
    (runWorker env p s).2 = .ok uri ↔ (createSubscription env s p).2 = .ok uri := by
  unfold runWorker
  rcases hcs : createSubscription env s p with ⟨t, r⟩
  cases r <;> simp

theorem runWorker_error_elim {env : Env} {p : SubscriptionPayload} {s : RedfishServer}
    {m : String} (h : (runWorker env p s).2 = .error m) :
    ∃ e, (createSubscription env s p).2 = .error e ∧
      m = "subscription failed on server " ++ s.IP ++ ": " ++ e := by
  unfold runWorker at h
  rcases hcs : createSubscription env s p with ⟨t, r⟩
  rw [hcs] at h
  cases r with
  | error e =>
    simp only [Except.error.injEq] at h
    exact ⟨e, rfl, h.symm⟩
  | ok u => simp at h

theorem runWorker_error_intro {env : Env} {p : SubscriptionPayload} {s : RedfishServer}
    {e : String} (h : (createSubscription env s p).2 = .error e) :
    (runWorker env p s).2 =
      .error ("subscription failed on server " ++ s.IP ++ ": " ++ e) := by
  unfold runWorker
  rcases hcs : createSubscription env s p with ⟨t, r⟩
  rw [hcs] at h
  cases r with
  | error e' => cases h; rfl
  | ok u => simp at h

theorem workerErrOption_eq_some {env : Env} {p : SubscriptionPayload}
    {s : RedfishServer} {m : String} :
    workerErrOption env p s = some m ↔ (runWorker env p s).2 = .error m := by
  unfold workerErrOption
  cases hr : (runWorker env p s).2 <;> simp

theorem workerErrOption_eq_none {env : Env} {p : SubscriptionPayload}
    {s : RedfishServer} :
    workerErrOption env p s = none ↔ ∃ u, (runWorker env p s).2 = .ok u := by
  unfold workerErrOption
  cases hr : (runWorker env p s).2 <;> simp

theorem mem_fleetAllErrors {env : Env} {l : List RedfishServer}
    {p : SubscriptionPayload} {m : String} :
    m ∈ fleetAllErrors env l p ↔ ∃ s ∈ l, (runWorker env p s).2 = .error m := by
  unfold fleetAllErrors
  rw [List.mem_filterMap]
  constructor
  · rintro ⟨s, hs, hm⟩
    exact ⟨s, hs, workerErrOption_eq_some.mp hm⟩
  · rintro ⟨s, hs, hm⟩
    exact ⟨s, hs, workerErrOption_eq_some.mpr hm⟩

theorem fleetAllErrors_eq_nil {env : Env} {l : List RedfishServer}
    {p : SubscriptionPayload} (h : ∀ s ∈ l, ∃ u, (runWorker env p s).2 = .ok u) :
    fleetAllErrors env l p = [] := by
  unfold fleetAllErrors
  rw [List.filterMap_eq_nil_iff]
  exact fun s hs => workerErrOption_eq_none.mpr (h s hs)

/-! ### The fold that builds the subscription map -/

theorem foldl_fleetStep_mem (env : Env) (p : SubscriptionPayload) :
    ∀ (l : List RedfishServer) (acc : List (String × String)) (q : String × String),
      q ∈ l.foldl (fleetStep env p) acc →
      q ∈ acc ∨ ∃ s ∈ l, s.IP = q.1 ∧ (runWorker env p s).2 = .ok q.2 := by
  intro l
  induction l with
  | nil => intro acc q h; exact .inl h
  | cons s rest ih =>
    intro acc q h
    simp only [List.foldl_cons] at h
    rcases ih (fleetStep env p acc s) q h with hin | ⟨s', hs', hip, hok⟩
    · unfold fleetStep at hin
      cases hr : (runWorker env p s).2 with
      | error e =>
        rw [hr] at hin
        exact .inl hin
      | ok uri =>
        rw [hr] at hin
        rcases mem_of_mem_mapInsert hin with rfl | hm
        · exact .inr ⟨s, List.mem_cons_self s rest, rfl, hr⟩
        · exact .inl hm
    · exact .inr ⟨s', List.mem_cons_of_mem _ hs', hip, hok⟩

theorem foldl_fleetStep_keys_mono (env : Env) (p : SubscriptionPayload) :
    ∀ (l : List RedfishServer) (acc : List (String × String)) (a : String),
      a ∈ acc.map Prod.fst → a ∈ (l.foldl (fleetStep env p) acc).map Prod.fst := by
  intro l
  induction l with
  | nil => intro acc a h; exact h
  | cons s rest ih =>
    intro acc a h
    simp only [List.foldl_cons]
    refine ih _ a ?_
    unfold fleetStep
    cases hr : (runWorker env p s).2 with
    | error e => exact h
    | ok uri => exact (mem_keys_mapInsert a).mpr (.inr h)

theorem foldl_fleetStep_keys_of_ok (env : Env) (p : SubscriptionPayload) :
    ∀ (l : List RedfishServer) (acc : List (String × String)) (s : RedfishServer),
      s ∈ l → (∃ u, (runWorker env p s).2 = .ok u) →
      s.IP ∈ (l.foldl (fleetStep env p) acc).map Prod.fst := by
  intro l
  induction l with
  | nil => intro acc s h; cases h
  | cons t rest ih =>
    intro acc s hs hok
    simp only [List.foldl_cons]
    rcases List.mem_cons.mp hs with rfl | hmem
    · rcases hok with ⟨u, hu⟩
      refine foldl_fleetStep_keys_mono env p rest _ s.IP ?_
      unfold fleetStep
      rw [hu]
      exact (mem_keys_mapInsert s.IP).mpr (.inl rfl)
    · exact ih _ s hmem hok

theorem foldl_fleetStep_keys_nodup (env : Env) (p : SubscriptionPayload) :
    ∀ (l : List RedfishServer) (acc : List (String × String)),
      (acc.map Prod.fst).Nodup →
      ((l.foldl (fleetStep env p) acc).map Prod.fst).Nodup := by
  intro l
  induction l with
  | nil => intro acc h; exact h
  | cons s rest ih =>
    intro acc h
    simp only [List.foldl_cons]
    refine ih _ ?_
    unfold fleetStep
    cases hr : (runWorker env p s).2 with
    | error e => exact h
    | ok uri => exact keys_nodup_mapInsert _ _ h

theorem foldl_fleetStep_all_ok (env : Env) (p : SubscriptionPayload)
    (uriF : RedfishServer → String) :
    ∀ (l : List RedfishServer) (acc : List (String × String)),
      (∀ s ∈ l, (runWorker env p s).2 = .ok (uriF s)) →
      (∀ s ∈ l, ∀ q ∈ acc, q.1 ≠ s.IP) →
      (l.map (fun s => s.IP)).Nodup →
      l.foldl (fleetStep env p) acc = acc ++ l.map (fun s => (s.IP, uriF s)) := by
  intro l
  induction l with
  | nil => intro acc _ _ _; simp
  | cons s rest ih =>
    intro acc hok hfresh hnd
    simp only [List.map_cons, List.nodup_cons] at hnd
    have hstep : fleetStep env p acc s = acc ++ [(s.IP, uriF s)] := by
      unfold fleetStep
      rw [hok s (List.mem_cons_self s rest)]
      exact mapInsert_of_not_mem_keys _ _ _
        (fun q hq => hfresh s (List.mem_cons_self s rest) q hq)
    simp only [List.foldl_cons, hstep]
    rw [ih (acc ++ [(s.IP, uriF s)])
      (fun s' hs' => hok s' (List.mem_cons_of_mem _ hs'))
      ?_ hnd.2]
    · simp
    · intro s' hs' q hq
      rcases List.mem_append.mp hq with hq | hq
      · exact hfresh s' (List.mem_cons_of_mem _ hs') q hq
      · rcases List.mem_singleton.mp hq with rfl
        intro hcontra
        apply hnd.1
        have hips : s.IP = s'.IP := hcontra
        rw [hips]
        exact List.mem_map_of_mem (fun x => x.IP) hs'

/-! ### Server lookup -/

theorem getServerInfo_of_not_mem (l : List RedfishServer) (ip : String)
    (h : ∀ s ∈ l, s.IP ≠ ip) : getServerInfo l ip = ⟨"", "", "", "", ""⟩ := by
  induction l with
  | nil => rfl
  | cons s rest ih =>
    unfold getServerInfo
    rw [if_neg (h s (List.mem_cons_self s rest))]
    exact ih (fun s' hs' => h s' (List.mem_cons_of_mem _ hs'))

theorem getServerInfo_eq_of_mem (l : List RedfishServer) (s : RedfishServer) :
    (l.map (fun x => x.IP)).Nodup → s ∈ l → getServerInfo l s.IP = s := by
  induction l with
  | nil => intro _ hs; cases hs
  | cons t rest ih =>
    intro hnd hs
    simp only [List.map_cons, List.nodup_cons] at hnd
    rcases List.mem_cons.mp hs with rfl | hmem
    · unfold getServerInfo
      rw [if_pos rfl]
    · unfold getServerInfo
      have hne : t.IP ≠ s.IP := by
        intro h
        exact hnd.1 (h ▸ List.mem_map_of_mem (fun x => x.IP) hmem)
      rw [if_neg hne]
      exact ih hnd.2 hmem

/-! ### Unfolding the orchestrator outcome -/

theorem CreateAll_of_no_errors {env : Env} {l : List RedfishServer}
    {p : SubscriptionPayload} (h : fleetAllErrors env l p = []) :
    CreateSubscriptionsForAllServers env l p =
      { result := some (fleetSubscriptionMap env l p)
        error := none
        createTrace := fleetCreateTrace env l p
        rollbackTrace := [] } := by
  unfold CreateSubscriptionsForAllServers
  rw [h]
  simp

theorem CreateAll_of_errors {env : Env} {l : List RedfishServer}
    {p : SubscriptionPayload} (h : 0 < (fleetAllErrors env l p).length) :
    CreateSubscriptionsForAllServers env l p =
      { result := none
        error := some ("subscription process encountered errors: [" ++
                       String.intercalate " " (fleetAllErrors env l p) ++ "]")
        createTrace := fleetCreateTrace env l p
        rollbackTrace := DeleteSubscriptionsFromAllServers env l
          (fleetSubscriptionMap env l p) } := by
  unfold CreateSubscriptionsForAllServers
  rw [if_pos h]

/-! ### Counting delete calls in a trace -/

theorem countDel_nil (ip uri : String) : countDel [] ip uri = 0 :=
  rfl

theorem countDel_append (t1 t2 : List Event) (ip uri : String) :
    countDel (t1 ++ t2) ip uri = countDel t1 ip uri + countDel t2 ip uri := by
  simp [countDel, List.filter_append]

theorem deleteSeg_trace_of_ok {env : Env} {s : RedfishServer} {uri : String}
    (hc : env.connect s = .ok ()) (he : env.eventService s = .ok ()) :
    (deleteSubscriptionFromServer env s uri).1 =
      [Event.connect s.IP, Event.deleteCall s.IP uri] := by
  unfold deleteSubscriptionFromServer
  rw [hc, he]
  cases hd : env.deleteEventSubscription s uri <;> rfl

theorem countDel_deleteSeg_self {env : Env} {s : RedfishServer} {uri : String}
    (hc : env.connect s = .ok ()) (he : env.eventService s = .ok ()) :
    countDel (deleteSubscriptionFromServer env s uri).1 s.IP uri = 1 := by
  rw [deleteSeg_trace_of_ok hc he]
  simp [countDel]

theorem countDel_deleteSeg_ne {env : Env} {s : RedfishServer} {uri2 ip uri : String}
    (hne : s.IP ≠ ip) :
    countDel (deleteSubscriptionFromServer env s uri2).1 ip uri = 0 := by
  unfold deleteSubscriptionFromServer
  cases hc : env.connect s with
  | error e => simp [countDel, hne]
  | ok u =>
    cases u
    cases he : env.eventService s with
    | error e => simp [countDel, hne]
    | ok u2 =>
      cases u2
      cases hd : env.deleteEventSubscription s uri2 <;> simp [countDel, hne]

/-! ### The rollback pass -/

theorem rollback_nil (env : Env) (servers : List RedfishServer) :
    DeleteSubscriptionsFromAllServers env servers [] = [] :=
  rfl

theorem rollback_cons (env : Env) (servers : List RedfishServer)
    (k v : String) (rest : List (String × String)) :
    DeleteSubscriptionsFromAllServers env servers ((k, v) :: rest) =
      (deleteSubscriptionFromServer env (getServerInfo servers k) v).1 ++
        DeleteSubscriptionsFromAllServers env servers rest := by
  simp [DeleteSubscriptionsFromAllServers]

theorem rollback_countDel_zero (env : Env) (servers : List RedfishServer) :
    ∀ (m : List (String × String)) (ip uri : String),
      (∀ q ∈ m, (getServerInfo servers q.1).IP ≠ ip) →
      countDel (DeleteSubscriptionsFromAllServers env servers m) ip uri = 0 := by
  intro m
  induction m with
  | nil => intro ip uri _; rfl
  | cons q rest ih =>
    intro ip uri h
    rcases q with ⟨k, v⟩
    rw [rollback_cons, countDel_append,
      countDel_deleteSeg_ne (h (k, v) (List.mem_cons_self _ rest)),
      ih ip uri (fun q' hq' => h q' (List.mem_cons_of_mem _ hq'))]

theorem rollback_countDel_one (env : Env) (servers : List RedfishServer) :
    ∀ (m : List (String × String)),
      (m.map Prod.fst).Nodup →
      (∀ q ∈ m, (getServerInfo servers q.1).IP = q.1 ∧
        env.connect (getServerInfo servers q.1) = .ok () ∧
        env.eventService (getServerInfo servers q.1) = .ok ()) →
      ∀ ip uri : String, (ip, uri) ∈ m →
      countDel (DeleteSubscriptionsFromAllServers env servers m) ip uri = 1 := by
  intro m
  induction m with
  | nil => intro _ _ ip uri hmem; cases hmem
  | cons q rest ih =>
    intro hnd hres ip uri hmem
    rcases q with ⟨k, v⟩
    simp only [List.map_cons, List.nodup_cons] at hnd
    rw [rollback_cons, countDel_append]
    rcases List.mem_cons.mp hmem with heq | hmem'
    · rcases Prod.mk.injEq .. ▸ heq with ⟨rfl, rfl⟩
      obtain ⟨hip, hc, he⟩ := hres (ip, uri) (List.mem_cons_self _ rest)
      have hseg : countDel (deleteSubscriptionFromServer env
          (getServerInfo servers ip) uri).1 ip uri = 1 := by
        have h9 := @countDel_deleteSeg_self env (getServerInfo servers ip) uri hc he
        rwa [hip] at h9
      rw [hseg, rollback_countDel_zero env servers rest ip uri ?_]
      intro q' hq'
      obtain ⟨hip', _, _⟩ := hres q' (List.mem_cons_of_mem _ hq')
      rw [hip']
      intro hcontra
      exact hnd.1 (hcontra ▸ List.mem_map_of_mem Prod.fst hq')
    · have hipk : ip ≠ k := by
        intro hcontra
        exact hnd.1 (hcontra ▸ List.mem_map_of_mem Prod.fst hmem')
      obtain ⟨hipk', _, _⟩ := hres (k, v) (List.mem_cons_self _ rest)
      have hseg : countDel (deleteSubscriptionFromServer env
          (getServerInfo servers k) v).1 ip uri = 0 := by
        refine countDel_deleteSeg_ne ?_
        rw [hipk']
        exact fun h => hipk h.symm
      rw [hseg, ih hnd.2 (fun q' hq' => hres q' (List.mem_cons_of_mem _ hq'))
        ip uri hmem']

/-! ### Shapes of single-target traces -/

theorem getServerSubscriptions_trace_shape {env : Env} {s : RedfishServer} :
    ∀ e ∈ (getServerSubscriptions env s).1,
      e = Event.connect s.IP ∨ e = Event.listSubs s.IP := by
  intro e he
  unfold getServerSubscriptions at he
  cases hc : env.connect s with
  | error e0 =>
    rw [hc] at he
    simp only [List.mem_singleton] at he
    exact .inl he
  | ok u =>
    cases u
    rw [hc] at he
    cases hes : env.eventService s with
    | error e0 =>
      rw [hes] at he
      simp only [List.mem_singleton] at he
      exact .inl he
    | ok u2 =>
      cases u2
      rw [hes] at he
      cases hg : env.getEventSubscriptions s with
      | error e0 =>
        rw [hg] at he
        simp only [List.mem_cons, List.not_mem_nil, or_false] at he
        exact he
      | ok subs =>
        rw [hg] at he
        simp only [List.mem_cons, List.not_mem_nil, or_false] at he
        exact he

theorem deleteSubscriptionFromServer_trace_shape {env : Env} {s : RedfishServer}
    {uri : String} :
    ∀ e ∈ (deleteSubscriptionFromServer env s uri).1,
      e = Event.connect s.IP ∨ e = Event.deleteCall s.IP uri := by
  intro e he
  unfold deleteSubscriptionFromServer at he
  cases hc : env.connect s with
  | error e0 =>
    rw [hc] at he
    simp only [List.mem_singleton] at he
    exact .inl he
  | ok u =>
    cases u
    rw [hc] at he
    cases hes : env.eventService s with
    | error e0 =>
      rw [hes] at he
      simp only [List.mem_singleton] at he
      exact .inl he
    | ok u2 =>
      cases u2
      rw [hes] at he
      cases hd : env.deleteEventSubscription s uri with
      | error e0 =>
        rw [hd] at he
        simp only [List.mem_cons, List.not_mem_nil, or_false] at he
        exact he
      | ok u3 =>
        rw [hd] at he
        simp only [List.mem_cons, List.not_mem_nil, or_false] at he
        exact he

theorem deleteConflictingLoop_trace_shape {env : Env} {s : RedfishServer}
    {p : SubscriptionPayload} :
    ∀ (subs : List EventDestination), ∀ e ∈ (deleteConflictingLoop env s p subs).1,
      e = Event.connect s.IP ∨ ∃ u, e = Event.deleteCall s.IP u := by
  intro subs
  induction subs with
  | nil => intro e he; cases he
  | cons sub rest ih =>
    intro e he
    unfold deleteConflictingLoop at he
    by_cases hdest : sub.Destination = p.Destination
    · rw [if_pos hdest] at he
      rcases hds : deleteSubscriptionFromServer env s sub.ODataID with ⟨t, r⟩
      rw [hds] at he
      cases r with
      | some e0 =>
        have ht : e ∈ (deleteSubscriptionFromServer env s sub.ODataID).1 := by
          rw [hds]; exact he
        rcases deleteSubscriptionFromServer_trace_shape e ht with h | h
        · exact .inl h
        · exact .inr ⟨sub.ODataID, h⟩
      | none =>
        simp only [List.mem_append] at he
        rcases he with he | he
        · have ht : e ∈ (deleteSubscriptionFromServer env s sub.ODataID).1 := by
            rw [hds]; exact he
          rcases deleteSubscriptionFromServer_trace_shape e ht with h | h
          · exact .inl h
          · exact .inr ⟨sub.ODataID, h⟩
        · exact ih e he
    · rw [if_neg hdest] at he
      exact ih e he

theorem deleteConflicting_trace_shape {env : Env} {s : RedfishServer}
    {p : SubscriptionPayload} :
    ∀ e ∈ (deleteConflictingSubscriptions env s p).1,
      e = Event.connect s.IP ∨ e = Event.listSubs s.IP ∨
        ∃ u, e = Event.deleteCall s.IP u := by
  intro e he
  unfold deleteConflictingSubscriptions at he
  rcases hg : getServerSubscriptions env s with ⟨t, r⟩
  rw [hg] at he
  cases r with
  | error e0 =>
    have ht : e ∈ (getServerSubscriptions env s).1 := by rw [hg]; exact he
    rcases getServerSubscriptions_trace_shape e ht with h | h
    · exact .inl h
    · exact .inr (.inl h)
  | ok subs =>
    simp only [List.mem_append] at he
    rcases he with he | he
    · have ht : e ∈ (getServerSubscriptions env s).1 := by rw [hg]; exact he
      rcases getServerSubscriptions_trace_shape e ht with h | h
      · exact .inl h
      · exact .inr (.inl h)
    · rcases deleteConflictingLoop_trace_shape subs e he with h | h
      · exact .inl h
      · exact .inr (.inr h)

/-! ### Duplicate cleanup when every matching delete succeeds -/

theorem deleteConflictingLoop_all_ok {env : Env} {s : RedfishServer}
    {p : SubscriptionPayload}
    (hc : env.connect s = .ok ()) (he : env.eventService s = .ok ()) :
    ∀ (subs : List EventDestination),
      (∀ sub ∈ subs, sub.Destination = p.Destination →
        env.deleteEventSubscription s sub.ODataID = .ok ()) →
      deleteConflictingLoop env s p subs =
        (((subs.filter (fun sub => decide (sub.Destination = p.Destination))).map
          (fun sub => [Event.connect s.IP, Event.deleteCall s.IP sub.ODataID])).flatten,
         none) := by
  intro subs
  induction subs with
  | nil => intro _; rfl
  | cons sub rest ih =>
    intro hd
    unfold deleteConflictingLoop
    by_cases hdest : sub.Destination = p.Destination
    · rw [if_pos hdest]
      have hseg : deleteSubscriptionFromServer env s sub.ODataID =
          ([Event.connect s.IP, Event.deleteCall s.IP sub.ODataID], none) := by
        unfold deleteSubscriptionFromServer
        rw [hc, he, hd sub (List.mem_cons_self sub rest) hdest]
      rw [hseg]
      dsimp only
      rw [ih (fun sub' hsub' => hd sub' (List.mem_cons_of_mem _ hsub'))]
      rw [List.filter_cons_of_pos (by simpa using hdest), List.map_cons,
        List.flatten_cons]
    · rw [if_neg hdest]
      rw [ih (fun sub' hsub' => hd sub' (List.mem_cons_of_mem _ hsub'))]
      rw [List.filter_cons_of_neg (by simpa using hdest)]

theorem deleteConflicting_all_ok {env : Env} {s : RedfishServer}
    {p : SubscriptionPayload} {subs : List EventDestination}
    (hc : env.connect s = .ok ()) (he : env.eventService s = .ok ())
    (hg : env.getEventSubscriptions s = .ok subs)
    (hd : ∀ sub ∈ subs, sub.Destination = p.Destination →
      env.deleteEventSubscription s sub.ODataID = .ok ()) :
    deleteConflictingSubscriptions env s p =
      ([Event.connect s.IP, Event.listSubs s.IP] ++
        ((subs.filter (fun sub => decide (sub.Destination = p.Destination))).map
          (fun sub => [Event.connect s.IP, Event.deleteCall s.IP sub.ODataID])).flatten,
       none) := by
  have hgs : getServerSubscriptions env s =
      ([Event.connect s.IP, Event.listSubs s.IP], .ok subs) := by
    unfold getServerSubscriptions
    rw [hc, he, hg]
  unfold deleteConflictingSubscriptions
  rw [hgs]
  dsimp only
  rw [deleteConflictingLoop_all_ok hc he subs hd]

/-! ### The create path always takes the legacy shape -/

theorem createSubscription_trace_of_ok {env : Env} {s : RedfishServer}
    {p : SubscriptionPayload}
    (hc : env.connect s = .ok ()) (he : env.eventService s = .ok ()) :
    (createSubscription env s p).1 =
      Event.connect s.IP ::
        ((deleteConflictingSubscriptions env s p).1 ++
          [Event.createLegacyCall s.IP p.Destination p.EventTypes p.HTTPHeaders
            p.Protocol p.Context p.Oem]) ∧
    (createSubscription env s p).2 = (createLegacySubscription env s p).2 := by
  unfold createSubscription
  rw [hc, he]
  simp [isV1_5, createLegacySubscription]

theorem createSubscription_no_v15 {env : Env} {s : RedfishServer}
    {p : SubscriptionPayload} (ip dest : String) (rp rt : List String)
    (hs : List (String × String)) (pr c drp oem : String) :
    Event.createV15Call ip dest rp rt hs pr c drp oem ∉
      (createSubscription env s p).1 := by
  intro hmem
  cases hc : env.connect s with
  | error e =>
    have ht : (createSubscription env s p).1 = [Event.connect s.IP] := by
      unfold createSubscription
      rw [hc]
    rw [ht] at hmem
    rcases List.mem_singleton.mp hmem with h
    exact Event.noConfusion h
  | ok u =>
    cases u
    cases hes : env.eventService s with
    | error e =>
      have ht : (createSubscription env s p).1 = [Event.connect s.IP] := by
        unfold createSubscription
        rw [hc, hes]
      rw [ht] at hmem
      rcases List.mem_singleton.mp hmem with h
      exact Event.noConfusion h
    | ok u2 =>
      cases u2
      rw [(createSubscription_trace_of_ok hc hes).1] at hmem
      rcases List.mem_cons.mp hmem with h | h
      · exact Event.noConfusion h
      rcases List.mem_append.mp h with h | h
      · rcases deleteConflicting_trace_shape _ h with h2 | h2 | ⟨u3, h2⟩
        · exact Event.noConfusion h2
        · exact Event.noConfusion h2
        · exact Event.noConfusion h2
      · exact Event.noConfusion (List.mem_singleton.mp h)

/-! ### Error-channel accounting -/

theorem workerErrSends_le_one (env : Env) (p : SubscriptionPayload)
    (s : RedfishServer) : workerErrSends env p s ≤ 1 := by
  unfold workerErrSends
  cases hr : (runWorker env p s).2 <;> simp

theorem sum_workerErrSends_eq (env : Env) (p : SubscriptionPayload) :
    ∀ l : List RedfishServer,
      (l.map (workerErrSends env p)).sum = (fleetAllErrors env l p).length := by
  intro l
  induction l with
  | nil => rfl
  | cons s rest ih =>
    unfold fleetAllErrors at ih ⊢
    cases hr : (runWorker env p s).2 with
    | error e =>
      have h1 : workerErrSends env p s = 1 := by
        unfold workerErrSends
        rw [hr]
      have h2 : workerErrOption env p s = some e := by
        unfold workerErrOption
        rw [hr]
      simp only [List.map_cons, List.sum_cons, List.filterMap_cons, h1, h2,
        List.length_cons, ih]
      omega
    | ok u =>
      have h1 : workerErrSends env p s = 0 := by
        unfold workerErrSends
        rw [hr]
      have h2 : workerErrOption env p s = none := by
        unfold workerErrOption
        rw [hr]
      simp only [List.map_cons, List.sum_cons, List.filterMap_cons, h1, h2, ih]
      omega

theorem sum_map_le_length_of_le_one {α : Type} (f : α → Nat) (h : ∀ x, f x ≤ 1) :
    ∀ l : List α, (l.map f).sum ≤ l.length := by
  intro l
  induction l with
  | nil => simp
  | cons x xs ih =>
    simp only [List.map_cons, List.sum_cons, List.length_cons]
    have := h x
    omega

/-! ### Claims -/

/-- C2: for any list of servers with pairwise-distinct addresses on which
every per-server create succeeds, `CreateSubscriptionsForAllServers`
returns no error and a result map with exactly one entry per input server,
keyed by that server's address and holding that server's identifier. -/
theorem C2_all_success_full_map (env : Env) (servers : List RedfishServer)
    (p : SubscriptionPayload) (uriF : RedfishServer → String)
    (hnd : (servers.map (fun s => s.IP)).Nodup)
    (hok : ∀ s ∈ servers, (createSubscription env s p).2 = .ok (uriF s)) :
    (CreateSubscriptionsForAllServers env servers p).error = none ∧
    (CreateSubscriptionsForAllServers env servers p).result =
      some (servers.map (fun s => (s.IP, uriF s))) ∧
    (servers.map (fun s => (s.IP, uriF s))).length = servers.length := by
  have hokw : ∀ s ∈ servers, (runWorker env p s).2 = .ok (uriF s) :=
    fun s hs => runWorker_ok_iff.mpr (hok s hs)
  have herr : fleetAllErrors env servers p = [] :=
    fleetAllErrors_eq_nil (fun s hs => ⟨uriF s, hokw s hs⟩)
  have hmap : fleetSubscriptionMap env servers p =
      servers.map (fun s => (s.IP, uriF s)) := by
    unfold fleetSubscriptionMap
    have h := foldl_fleetStep_all_ok env p uriF servers [] hokw
      (fun s _ q hq => absurd hq (List.not_mem_nil q)) hnd
    simpa using h
  rw [CreateAll_of_no_errors herr]
  exact ⟨rfl, by rw [hmap], by simp⟩

/-- C2 witness: two distinct servers, all creates succeed, the returned map
pairs each address with its identifier. -/
theorem C2_witness :
    (CreateSubscriptionsForAllServers envAllOk [srvA, srvB] payload0).error = none ∧
    (CreateSubscriptionsForAllServers envAllOk [srvA, srvB] payload0).result =
      some [("a", "s1"), ("b", "s2")] := by
  have h := C2_all_success_full_map envAllOk [srvA, srvB] payload0
    (fun s => if s.IP = "b" then "s2" else "s1") (by decide) (by decide)
  refine ⟨h.1, ?_⟩
  rw [h.2.1]
  rfl

/-- C8: the error channel is created with capacity equal to the number of
input servers; each worker sends at most one error, and the total number of
sends equals the number of collected errors and never exceeds the
capacity. -/
theorem C8_error_channel_capacity_bound (env : Env) (servers : List RedfishServer)
    (p : SubscriptionPayload) :
    (∀ s : RedfishServer, workerErrSends env p s ≤ 1) ∧
    (servers.map (workerErrSends env p)).sum =
      (fleetAllErrors env servers p).length ∧
    (servers.map (workerErrSends env p)).sum ≤ errChanCapacity servers := by
  refine ⟨workerErrSends_le_one env p, sum_workerErrSends_eq env p servers, ?_⟩
  exact sum_map_le_length_of_le_one _ (workerErrSends_le_one env p) servers

/-- C9: with duplicate addresses in the input and every create succeeding,
the returned map has pairwise-distinct keys, one entry per distinct
address, hence strictly fewer entries than input servers; each entry holds
the identifier of one of the servers with that address, and (when the
created identifiers are pairwise distinct) some created identifier is
absent from the map. -/
theorem C9_duplicate_addresses_collapse (env : Env) (servers : List RedfishServer)
    (p : SubscriptionPayload) (uriF : RedfishServer → String)
    (hok : ∀ s ∈ servers, (createSubscription env s p).2 = .ok (uriF s))
    (hdup : ¬ (servers.map (fun s => s.IP)).Nodup)
    (hU : (servers.map uriF).Nodup) :
    (CreateSubscriptionsForAllServers env servers p).result =
      some (fleetSubscriptionMap env servers p) ∧
    ((fleetSubscriptionMap env servers p).map Prod.fst).Nodup ∧
    (fleetSubscriptionMap env servers p).length =
      (servers.map (fun s => s.IP)).dedup.length ∧
    (fleetSubscriptionMap env servers p).length < servers.length ∧
    (∀ q ∈ fleetSubscriptionMap env servers p,
      ∃ s ∈ servers, s.IP = q.1 ∧ uriF s = q.2) ∧
    ∃ s ∈ servers, uriF s ∉ (fleetSubscriptionMap env servers p).map Prod.snd := by
  have hokw : ∀ s ∈ servers, (runWorker env p s).2 = .ok (uriF s) :=
    fun s hs => runWorker_ok_iff.mpr (hok s hs)
  have herr : fleetAllErrors env servers p = [] :=
    fleetAllErrors_eq_nil (fun s hs => ⟨uriF s, hokw s hs⟩)
  have hknd : ((fleetSubscriptionMap env servers p).map Prod.fst).Nodup := by
    unfold fleetSubscriptionMap
    exact foldl_fleetStep_keys_nodup env p servers [] (by simp)
  have hqmem : ∀ q ∈ fleetSubscriptionMap env servers p,
      ∃ s ∈ servers, s.IP = q.1 ∧ uriF s = q.2 := by
    intro q hq
    rcases foldl_fleetStep_mem env p servers [] q hq with h0 | ⟨s, hs, hip, hokq⟩
    · cases h0
    · refine ⟨s, hs, hip, ?_⟩
      have := hokw s hs
      rw [hokq] at this
      exact (Except.ok.injEq .. ▸ this).symm
  have hkeys : ∀ a : String,
      a ∈ (fleetSubscriptionMap env servers p).map Prod.fst ↔
        a ∈ servers.map (fun s => s.IP) := by
    intro a
    constructor
    · intro ha
      rcases List.mem_map.mp ha with ⟨q, hq, rfl⟩
      rcases hqmem q hq with ⟨s, hs, hip, _⟩
      exact List.mem_map.mpr ⟨s, hs, hip⟩
    · intro ha
      rcases List.mem_map.mp ha with ⟨s, hs, rfl⟩
      unfold fleetSubscriptionMap
      exact foldl_fleetStep_keys_of_ok env p servers [] s hs ⟨uriF s, hokw s hs⟩
  have hlen : (fleetSubscriptionMap env servers p).length =
      (servers.map (fun s => s.IP)).dedup.length := by
    have h1 : (fleetSubscriptionMap env servers p).length =
        ((fleetSubscriptionMap env servers p).map Prod.fst).length := by simp
    have h2 : ((fleetSubscriptionMap env servers p).map Prod.fst).toFinset =
        (servers.map (fun s => s.IP)).toFinset := by
      apply Finset.ext
      intro a
      rw [List.mem_toFinset, List.mem_toFinset]
      exact hkeys a
    have h3 : ((fleetSubscriptionMap env servers p).map Prod.fst).toFinset.card =
        ((fleetSubscriptionMap env servers p).map Prod.fst).length :=
      List.toFinset_card_of_nodup hknd
    have h4 : (servers.map (fun s => s.IP)).dedup.toFinset =
        (servers.map (fun s => s.IP)).toFinset := by
      apply Finset.ext
      intro a
      rw [List.mem_toFinset, List.mem_toFinset]
      exact List.mem_dedup
    have h5 : (servers.map (fun s => s.IP)).dedup.toFinset.card =
        (servers.map (fun s => s.IP)).dedup.length :=
      List.toFinset_card_of_nodup (List.nodup_dedup _)
    rw [h1, ← h3, h2, ← h4, h5]
  have hlt : (fleetSubscriptionMap env servers p).length < servers.length := by
    rw [hlen]
    have hle : (servers.map (fun s => s.IP)).dedup.length ≤
        (servers.map (fun s => s.IP)).length :=
      (List.dedup_sublist _).length_le
    have hlens : (servers.map (fun s => s.IP)).length = servers.length := by simp
    rcases Nat.lt_or_ge (servers.map (fun s => s.IP)).dedup.length
        (servers.map (fun s => s.IP)).length with h | h
    · omega
    · exfalso
      have heq : (servers.map (fun s => s.IP)).dedup.length =
          (servers.map (fun s => s.IP)).length := by omega
      have hdd := (List.dedup_sublist (servers.map (fun s => s.IP))).eq_of_length heq
      exact hdup (hdd ▸ List.nodup_dedup (servers.map (fun s => s.IP)))
  refine ⟨?_, hknd, hlen, hlt, hqmem, ?_⟩
  · rw [CreateAll_of_no_errors herr]
  · by_contra hall
    push_neg at hall
    have hsub : servers.map uriF ⊆ (fleetSubscriptionMap env servers p).map Prod.snd := by
      intro u hu
      rcases List.mem_map.mp hu with ⟨s, hs, rfl⟩
      exact hall s hs
    have hperm := List.subperm_of_subset hU hsub
    have hle := hperm.length_le
    have h6 : (servers.map uriF).length = servers.length := by simp
    have h7 : ((fleetSubscriptionMap env servers p).map Prod.snd).length =
        (fleetSubscriptionMap env servers p).length := by simp
    omega

/-- C9 witness: two servers sharing address `a` with distinct identifiers;
the successful run returns a single-entry map, strictly smaller than the
input list, missing one of the created identifiers. -/
theorem C9_witness :
    ¬ (([srvA, srvA2].map (fun s => s.IP)).Nodup) ∧
    (fleetSubscriptionMap envDupOk [srvA, srvA2] payload0).length <
      ([srvA, srvA2] : List RedfishServer).length := by
  have h := C9_duplicate_addresses_collapse envDupOk [srvA, srvA2] payload0
    (fun s => if s.Username = "u2" then "s2" else "s1")
    (by decide) (by decide) (by decide)
  exact ⟨by decide, h.2.2.2.1⟩

/-- C1: with pairwise-distinct addresses, if any per-server create fails
then `CreateSubscriptionsForAllServers` returns a nil result map and a
non-nil error, and the rollback pass issues exactly one delete call, with
the recorded identifier, to every server recorded in the (internal)
subscription map. -/
theorem C1_failure_rolls_back_each_success (env : Env)
    (servers : List RedfishServer) (p : SubscriptionPayload)
    (hnd : (servers.map (fun s => s.IP)).Nodup)
    (hfail : ∃ s ∈ servers, ∃ e, (createSubscription env s p).2 = .error e) :
    (CreateSubscriptionsForAllServers env servers p).result = none ∧
    (CreateSubscriptionsForAllServers env servers p).error ≠ none ∧
    ∀ ip uri : String, (ip, uri) ∈ fleetSubscriptionMap env servers p →
      countDel (CreateSubscriptionsForAllServers env servers p).rollbackTrace
        ip uri = 1 := by
  obtain ⟨s0, hs0, e0, he0⟩ := hfail
  have herr0 := runWorker_error_intro he0
  have hmem0 : ("subscription failed on server " ++ s0.IP ++ ": " ++ e0) ∈
      fleetAllErrors env servers p :=
    mem_fleetAllErrors.mpr ⟨s0, hs0, herr0⟩
  have hpos : 0 < (fleetAllErrors env servers p).length :=
    List.length_pos.mpr (fun hnil => by rw [hnil] at hmem0; cases hmem0)
  rw [CreateAll_of_errors hpos]
  refine ⟨rfl, by simp, ?_⟩
  intro ip uri hmem
  have hknd : ((fleetSubscriptionMap env servers p).map Prod.fst).Nodup := by
    unfold fleetSubscriptionMap
    exact foldl_fleetStep_keys_nodup env p servers [] (by simp)
  have hres : ∀ q ∈ fleetSubscriptionMap env servers p,
      (getServerInfo servers q.1).IP = q.1 ∧
      env.connect (getServerInfo servers q.1) = .ok () ∧
      env.eventService (getServerInfo servers q.1) = .ok () := by
    intro q hq
    rcases foldl_fleetStep_mem env p servers [] q hq with h0 | ⟨s, hs, hip, hokq⟩
    · cases h0
    · have hlookup : getServerInfo servers q.1 = s := by
        rw [← hip]
        exact getServerInfo_eq_of_mem servers s hnd hs
      have hcs := runWorker_ok_iff.mp hokq
      obtain ⟨hc, he⟩ := createSubscription_ok_elim hcs
      rw [hlookup]
      exact ⟨hip, hc, he⟩
  exact rollback_countDel_one env servers (fleetSubscriptionMap env servers p)
    hknd hres ip uri hmem

/-- C1 witness: server `a` succeeds with identifier `s1`, server `b` fails;
the run returns a nil map and the rollback deletes `s1` from `a` exactly
once. -/
theorem C1_witness :
    (CreateSubscriptionsForAllServers envBFails [srvA, srvB] payload0).result =
      none ∧
    countDel (CreateSubscriptionsForAllServers envBFails [srvA, srvB]
      payload0).rollbackTrace "a" "s1" = 1 := by
  have h := C1_failure_rolls_back_each_success envBFails [srvA, srvB] payload0
    (by decide) ⟨srvB, by decide, "failed to connect to server b: down", by decide⟩
  exact ⟨h.1, h.2.2 "a" "s1" (by decide)⟩

/-- C5: whenever any per-server create fails, the returned result map is
nil and the returned error is the aggregate whose message concatenates the
collected per-server failure messages; each collected message is the
failure message of some failing server (naming that server), and every
failing server's message is collected. -/
theorem C5_aggregate_error_concatenation (env : Env)
    (servers : List RedfishServer) (p : SubscriptionPayload)
    (hfail : ∃ s ∈ servers, ∃ e, (createSubscription env s p).2 = .error e) :
    (CreateSubscriptionsForAllServers env servers p).result = none ∧
    (CreateSubscriptionsForAllServers env servers p).error =
      some ("subscription process encountered errors: [" ++
        String.intercalate " " (fleetAllErrors env servers p) ++ "]") ∧
    (∀ m ∈ fleetAllErrors env servers p, ∃ s ∈ servers, ∃ e,
      (createSubscription env s p).2 = .error e ∧
      m = "subscription failed on server " ++ s.IP ++ ": " ++ e) ∧
    (∀ s ∈ servers, ∀ e, (createSubscription env s p).2 = .error e →
      ("subscription failed on server " ++ s.IP ++ ": " ++ e) ∈
        fleetAllErrors env servers p) := by
  obtain ⟨s0, hs0, e0, he0⟩ := hfail
  have herr0 := runWorker_error_intro he0
  have hmem0 : ("subscription failed on server " ++ s0.IP ++ ": " ++ e0) ∈
      fleetAllErrors env servers p :=
    mem_fleetAllErrors.mpr ⟨s0, hs0, herr0⟩
  have hpos : 0 < (fleetAllErrors env servers p).length :=
    List.length_pos.mpr (fun hnil => by rw [hnil] at hmem0; cases hmem0)
  rw [CreateAll_of_errors hpos]
  refine ⟨rfl, rfl, ?_, ?_⟩
  · intro m hm
    rcases mem_fleetAllErrors.mp hm with ⟨s, hs, herr⟩
    rcases runWorker_error_elim herr with ⟨e, hcs, heq⟩
    exact ⟨s, hs, e, hcs, heq⟩
  · intro s hs e he
    exact mem_fleetAllErrors.mpr ⟨s, hs, runWorker_error_intro he⟩

/-- C5 witness: with server `b` failing, the outcome is a nil map and the
aggregate error built from the collected messages. -/
theorem C5_witness :
    (CreateSubscriptionsForAllServers envBFails [srvA, srvB] payload0).result =
      none ∧
    (CreateSubscriptionsForAllServers envBFails [srvA, srvB] payload0).error =
      some ("subscription process encountered errors: [" ++
        String.intercalate " "
          (fleetAllErrors envBFails [srvA, srvB] payload0) ++ "]") := by
  have h := C5_aggregate_error_concatenation envBFails [srvA, srvB] payload0
    ⟨srvB, by decide, "failed to connect to server b: down", by decide⟩
  exact ⟨h.1, h.2.1⟩

/-- C6: during duplicate cleanup, a delete call for `uri` is issued if and
only if the server reports an existing subscription with that resource
address whose destination equals the payload's destination — other fields
of the existing subscription are never consulted. -/
theorem C6_cleanup_matches_destination_only (env : Env) (s : RedfishServer)
    (p : SubscriptionPayload) (subs : List EventDestination)
    (hc : env.connect s = .ok ()) (he : env.eventService s = .ok ())
    (hg : env.getEventSubscriptions s = .ok subs)
    (hd : ∀ sub ∈ subs, sub.Destination = p.Destination →
      env.deleteEventSubscription s sub.ODataID = .ok ()) :
    ∀ uri : String,
      Event.deleteCall s.IP uri ∈ (deleteConflictingSubscriptions env s p).1 ↔
        ∃ sub ∈ subs, sub.Destination = p.Destination ∧ sub.ODataID = uri := by
  intro uri
  rw [deleteConflicting_all_ok hc he hg hd]
  dsimp only
  constructor
  · intro hmem
    rcases List.mem_append.mp hmem with h | h
    · rcases List.mem_cons.mp h with h2 | h2
      · exact Event.noConfusion h2
      · exact Event.noConfusion (List.mem_singleton.mp h2)
    · rcases List.mem_flatten.mp h with ⟨seg, hseg, hin⟩
      rcases List.mem_map.mp hseg with ⟨sub, hsub, rfl⟩
      rcases List.mem_cons.mp hin with h2 | h2
      · exact Event.noConfusion h2
      · have h3 := List.mem_singleton.mp h2
        have h4 : uri = sub.ODataID := by
          simpa using h3
        have h5 := List.mem_filter.mp hsub
        exact ⟨sub, h5.1, by simpa using h5.2, h4.symm⟩
  · rintro ⟨sub, hsub, hdest, hid⟩
    apply List.mem_append.mpr
    right
    apply List.mem_flatten.mpr
    refine ⟨[Event.connect s.IP, Event.deleteCall s.IP sub.ODataID], ?_, ?_⟩
    · exact List.mem_map.mpr
        ⟨sub, List.mem_filter.mpr ⟨hsub, by simpa using hdest⟩, rfl⟩
    · rw [hid]
      exact List.mem_cons_of_mem _ (List.mem_singleton.mpr rfl)

/-- C6 witness: the server reports one subscription matching the payload's
destination (with a different context) and one with a different
destination; only the matching one's address is deleted. -/
theorem C6_witness :
    Event.deleteCall "a" "e1" ∈
      (deleteConflictingSubscriptions envSubs srvA payload0).1 ∧
    Event.deleteCall "a" "e2" ∉
      (deleteConflictingSubscriptions envSubs srvA payload0).1 := by
  have h := C6_cleanup_matches_destination_only envSubs srvA payload0
    [sub1, sub2] rfl rfl rfl (by decide)
  constructor
  · exact (h "e1").mpr ⟨sub1, List.mem_cons_self sub1 [sub2], rfl, rfl⟩
  · intro hmem
    exact absurd ((h "e2").mp hmem) (by decide)

/-- C7: the version check always yields false, so the create path never
issues a v1.5-shape call; when the connection and event service succeed it
issues the legacy-shape call with exactly the payload's destination,
event-type filters, headers, protocol, context and vendor data, and its
result is the legacy call's result. -/
theorem C7_always_legacy_shape (env : Env) (s : RedfishServer)
    (p : SubscriptionPayload) :
    isV1_5 = false ∧
    (∀ (ip dest : String) (rp rt : List String) (hs : List (String × String))
      (pr c drp oem : String),
      Event.createV15Call ip dest rp rt hs pr c drp oem ∉
        (createSubscription env s p).1) ∧
    (env.connect s = .ok () → env.eventService s = .ok () →
      Event.createLegacyCall s.IP p.Destination p.EventTypes p.HTTPHeaders
        p.Protocol p.Context p.Oem ∈ (createSubscription env s p).1 ∧
      (createSubscription env s p).2 = (createLegacySubscription env s p).2) := by
  refine ⟨rfl, fun ip dest rp rt hs pr c drp oem =>
    createSubscription_no_v15 ip dest rp rt hs pr c drp oem, fun hc he => ?_⟩
  have h := @createSubscription_trace_of_ok env s p hc he
  refine ⟨?_, h.2⟩
  rw [h.1]
  exact List.mem_cons_of_mem _
    (List.mem_append.mpr (.inr (List.mem_singleton.mpr rfl)))

/-- C7 witness: on a reachable server the legacy-shape call with the
payload's fields appears in the trace. -/
theorem C7_witness :
    Event.createLegacyCall "a" "d" ["E"] [("h", "v")] "proto" "ctx" "oem" ∈
      (createSubscription envAllOk srvA payload0).1 :=
  ((C7_always_legacy_shape envAllOk srvA payload0).2.2 rfl rfl).1

/-- C3: the duplicate-cleanup step fails (listing the server's
subscriptions errors with `boom`) and `deleteConflictingSubscriptions`
reports that failure, yet `createSubscription` ignores it: the create
proceeds, succeeds, and the fleet run reports no error at all — the
cleanup failure is silently swallowed instead of aborting the server's
create attempt. -/
theorem C3_cleanup_failure_silently_ignored :
    (deleteConflictingSubscriptions envListFails srvA payload0).2 =
      some "failed to get event subscriptions on server a: boom" ∧
    (createSubscription envListFails srvA payload0).2 = .ok "s1" ∧
    (runWorker envListFails payload0 srvA).2 = .ok "s1" ∧
    fleetAllErrors envListFails [srvA] payload0 = [] ∧
    (CreateSubscriptionsForAllServers envListFails [srvA] payload0).error =
      none := by
  refine ⟨rfl, rfl, rfl, rfl, by decide⟩

/-- C4 counterexample: address `z` matches no descriptor (the server list
is empty), yet the rollback pass is not a no-op for that entry: it
attempts a connection (to the zero-value descriptor's empty address). -/
theorem C4_counterexample_connection_attempted :
    DeleteSubscriptionsFromAllServers envDown [] [("z", "s1")] =
      [Event.connect ""] := by
  rfl

/-- C4 (amended): for a result-map entry whose address matches no
descriptor, the rollback does not skip the entry: it looks up the
zero-value descriptor and attempts a connection to the empty address; the
attempt fails, the failure is only reported through the logged delete
error, no delete call is issued to any server, and the rollback pass
escalates no error. -/
theorem C4_lookup_miss_connects_zero_value (env : Env)
    (servers : List RedfishServer) (ip uri e : String)
    (hmiss : ∀ s ∈ servers, s.IP ≠ ip)
    (hdown : env.connect ⟨"", "", "", "", ""⟩ = .error e) :
    DeleteSubscriptionsFromAllServers env servers [(ip, uri)] =
      [Event.connect ""] ∧
    (deleteSubscriptionFromServer env (getServerInfo servers ip) uri).2 =
      some ("failed to connect to server : " ++ e) ∧
    (∀ ip2 uri2 : String,
      countDel (DeleteSubscriptionsFromAllServers env servers [(ip, uri)])
        ip2 uri2 = 0) := by
  have hz := getServerInfo_of_not_mem servers ip hmiss
  have hseg : deleteSubscriptionFromServer env (getServerInfo servers ip) uri =
      ([Event.connect ""], some ("failed to connect to server : " ++ e)) := by
    rw [hz]
    unfold deleteSubscriptionFromServer
    rw [hdown]
    dsimp only
    rw [show "failed to connect to server " ++ "" ++ ": " =
      "failed to connect to server : " from by decide]
  have htrace : DeleteSubscriptionsFromAllServers env servers [(ip, uri)] =
      [Event.connect ""] := by
    rw [rollback_cons, hseg, rollback_nil]
    simp
  refine ⟨htrace, by rw [hseg], ?_⟩
  intro ip2 uri2
  rw [htrace]
  simp [countDel]

/-- C4 witness: one known server `a`, an entry for unknown address `z`:
the rollback attempts the connection to the empty address. -/
theorem C4_witness :
    DeleteSubscriptionsFromAllServers envDown [srvA] [("z", "s1")] =
      [Event.connect ""] :=
  (C4_lookup_miss_connects_zero_value envDown [srvA] "z" "s1" "down"
    (by decide) rfl).1

/-- C10: for an address matching no descriptor, `getServerInfo` returns the
zero-value descriptor (empty address and credentials) rather than an error,
and the rollback pass proceeds to attempt the delete against it: the
connection to the empty address is attempted, fails, and only the logged
error results. -/
theorem C10_lookup_miss_returns_zero_value (env : Env)
    (servers : List RedfishServer) (ip uri e : String)
    (hmiss : ∀ s ∈ servers, s.IP ≠ ip)
    (hdown : env.connect ⟨"", "", "", "", ""⟩ = .error e) :
    getServerInfo servers ip = ⟨"", "", "", "", ""⟩ ∧
    (deleteSubscriptionFromServer env (getServerInfo servers ip) uri).1 =
      [Event.connect ""] ∧
    (deleteSubscriptionFromServer env (getServerInfo servers ip) uri).2 =
      some ("failed to connect to server : " ++ e) ∧
    Event.connect "" ∈ DeleteSubscriptionsFromAllServers env servers
      [(ip, uri)] := by
  have hz := getServerInfo_of_not_mem servers ip hmiss
  have hseg : deleteSubscriptionFromServer env (getServerInfo servers ip) uri =
      ([Event.connect ""], some ("failed to connect to server : " ++ e)) := by
    rw [hz]
    unfold deleteSubscriptionFromServer
    rw [hdown]
    dsimp only
    rw [show "failed to connect to server " ++ "" ++ ": " =
      "failed to connect to server : " from by decide]
  refine ⟨hz, by rw [hseg], by rw [hseg], ?_⟩
  rw [rollback_cons, hseg, rollback_nil]
  simp

/-- C10 witness: unknown address `z` with one known server `a`. -/
theorem C10_witness :
    getServerInfo [srvA] "z" = ⟨"", "", "", "", ""⟩ ∧
    Event.connect "" ∈
      DeleteSubscriptionsFromAllServers envDown [srvA] [("z", "s1")] := by
  have h := C10_lookup_miss_returns_zero_value envDown [srvA] "z" "s1" "down"
    (by decide) rfl
  exact ⟨h.1, h.2.2.2⟩
